import Mathlib

/-!
Verification of `cubits/accelerate_cuda_assert.h`.

The header is a compile-time capability gate around the C `assert` macro:

* an include guard `__ACCELERATE_CUDA_ASSERT_H__` (lines 13–14, 30);
* unless `__CUDACC_RTC__` is defined, it includes `<assert.h>` and
  `<cuda_runtime.h>` (lines 16–19);
* if `__CUDA_ARCH__` is defined and strictly below 200, it replaces
  `assert` by a macro that expands to nothing (lines 24–27).

We embed the preprocessor-visible behaviour of the header as a function on
an explicit preprocessor state, and the runtime behaviour of the two
possible `assert` definitions as state-passing functions, so that claims
about both compile-time selection and runtime effect can be stated.
-/

/-- What the `assert` facility currently expands to in the compilation
unit.  `native` is the platform definition from `<assert.h>` (evaluate the
condition, abort with a diagnostic when it is false); `noop` is the
replacement `#define assert(arg)` from line 26, which expands to nothing. -/
inductive AssertDef where
  | native
  | noop
  deriving DecidableEq

/-- The compile-time toolchain inputs the header consults.
`cudaArch = some v` means `__CUDA_ARCH__` is defined with value `v`
(a device-side compilation pass targeting compute capability `v / 100`,
e.g. `110` for capability 1.1, `200` for 2.0); `cudaArch = none` means the
macro is undefined (not a device-side pass).  `cudaccRtc` records whether
`__CUDACC_RTC__` is defined (runtime compilation via NVRTC). -/
structure Config where
  cudaArch : Option Nat
  cudaccRtc : Bool
  deriving DecidableEq

/-- The preprocessor state the header can observe or modify:
the include guard, whether the two platform headers have been pulled in,
the current definition of `assert`, and the other names defined in the
compilation context (which the header must not disturb). -/
structure PPState where
  guardDefined : Bool
  includedAssertH : Bool
  includedCudaRuntime : Bool
  assertDef : AssertDef
  otherDefs : List String
  deriving DecidableEq

/-- Lines 24–27 of the header: the capability gate proper.
`#if defined(__CUDA_ARCH__) && (__CUDA_ARCH__ < 200)` then
`#undef assert` / `#define assert(arg)`, otherwise nothing. -/
def gate (cudaArch : Option Nat) (s : PPState) : PPState :=
  match cudaArch with
  | some v => if v < 200 then { s with assertDef := AssertDef.noop } else s
  | none => s

/-- The decision the gate makes, as a function of the `__CUDA_ARCH__`
input alone: `true` exactly when the no-op substitution is performed
(device-side pass with capability value strictly below 200). -/
def noopSubstituted (cfg : Config) : Bool :=
  match cfg.cudaArch with
  | some v => decide (v < 200)
  | none => false

/-- The action of the gate on the current `assert` definition. -/
def gateAction (cudaArch : Option Nat) (d : AssertDef) : AssertDef :=
  match cudaArch with
  | some v => if v < 200 then AssertDef.noop else d
  | none => d

/-- Processing the whole header once inside a compilation unit:
the include guard (lines 13–14), the conditional includes (lines 16–19,
skipped under `__CUDACC_RTC__`; including `<assert.h>` establishes the
platform-native definition of `assert`), then the capability gate
(lines 24–27). -/
def processHeader (cfg : Config) (s : PPState) : PPState :=
  if s.guardDefined then s
  else
    let s1 : PPState := { s with guardDefined := true }
    let s2 : PPState :=
      if cfg.cudaccRtc then s1
      else
        { s1 with includedAssertH := true, includedCudaRuntime := true,
                  assertDef := AssertDef.native }
    gate cfg.cudaArch s2

/-- A condition expression handed to `assert`: evaluated in a runtime
state, it may change the state (side effects) and yields a boolean. -/
abbrev Cond (σ : Type) : Type := σ → σ × Bool

/-- The diagnostic an assertion failure reports: file, line and the text
of the failing condition. -/
structure Diagnostic where
  file : String
  line : Nat
  condText : String
  deriving DecidableEq

/-- Runtime behaviour of invoking `assert(c)` in state `st` under the
current definition `d`.  Under `native`, the condition is evaluated and a
false result terminates the unit of work with the diagnostic; under
`noop`, the invocation expands to nothing: the condition is not evaluated
and the state is returned unchanged. -/
def runAssert {σ : Type} (d : AssertDef) (diag : Diagnostic) (c : Cond σ)
    (st : σ) : Except Diagnostic σ :=
  match d with
  | AssertDef.native =>
      let r := c st
      if r.2 then Except.ok r.1 else Except.error diag
  | AssertDef.noop => Except.ok st

/-- Modelled from the spec: the host-native assertion semantics, which is
not part of `src/` (it lives in the platform's `<assert.h>`).  Following
the spec's words: evaluate the condition; if false, terminate the
executing unit of work and report the failing condition, file and line;
otherwise continue with the condition's side effects applied. -/
def hostNativeAssert {σ : Type} (diag : Diagnostic) (c : Cond σ)
    (st : σ) : Except Diagnostic σ :=
  let r := c st
  if r.2 then Except.ok r.1 else Except.error diag

/-! ### Helper lemmas -/

theorem gate_guardDefined (a : Option Nat) (s : PPState) :
    (gate a s).guardDefined = s.guardDefined := by
  unfold gate
  cases a with
  | none => rfl
  | some v =>
      by_cases h : v < 200 <;> simp [h]

theorem gate_includedAssertH (a : Option Nat) (s : PPState) :
    (gate a s).includedAssertH = s.includedAssertH := by
  unfold gate
  cases a with
  | none => rfl
  | some v =>
      by_cases h : v < 200 <;> simp [h]

theorem gate_includedCudaRuntime (a : Option Nat) (s : PPState) :
    (gate a s).includedCudaRuntime = s.includedCudaRuntime := by
  unfold gate
  cases a with
  | none => rfl
  | some v =>
      by_cases h : v < 200 <;> simp [h]

theorem gate_otherDefs (a : Option Nat) (s : PPState) :
    (gate a s).otherDefs = s.otherDefs := by
  unfold gate
  cases a with
  | none => rfl
  | some v =>
      by_cases h : v < 200 <;> simp [h]

theorem gate_assertDef (a : Option Nat) (s : PPState) :
    (gate a s).assertDef = gateAction a s.assertDef := by
  unfold gate gateAction
  cases a with
  | none => rfl
  | some v =>
      by_cases h : v < 200 <;> simp [h]

theorem processHeader_of_guard (cfg : Config) (s : PPState)
    (h : s.guardDefined = true) : processHeader cfg s = s := by
  unfold processHeader
  simp [h]

theorem processHeader_guardDefined (cfg : Config) (s : PPState) :
    (processHeader cfg s).guardDefined = true := by
  unfold processHeader
  by_cases h : s.guardDefined
  · simp [h]
  · simp [h, gate_guardDefined]
    by_cases hr : cfg.cudaccRtc <;> simp [hr, gate_guardDefined]

theorem processHeader_assertDef (cfg : Config) (s : PPState) :
    (processHeader cfg s).assertDef =
      if s.guardDefined then s.assertDef
      else gateAction cfg.cudaArch
        (if cfg.cudaccRtc then s.assertDef else AssertDef.native) := by
  unfold processHeader
  by_cases h : s.guardDefined
  · simp [h]
  · by_cases hr : cfg.cudaccRtc <;> simp [h, hr, gate_assertDef]

theorem processHeader_includedAssertH (cfg : Config) (s : PPState) :
    (processHeader cfg s).includedAssertH =
      if s.guardDefined then s.includedAssertH
      else if cfg.cudaccRtc then s.includedAssertH else true := by
  unfold processHeader
  by_cases h : s.guardDefined
  · simp [h]
  · by_cases hr : cfg.cudaccRtc <;> simp [h, hr, gate_includedAssertH]

theorem processHeader_includedCudaRuntime (cfg : Config) (s : PPState) :
    (processHeader cfg s).includedCudaRuntime =
      if s.guardDefined then s.includedCudaRuntime
      else if cfg.cudaccRtc then s.includedCudaRuntime else true := by
  unfold processHeader
  by_cases h : s.guardDefined
  · simp [h]
  · by_cases hr : cfg.cudaccRtc <;> simp [h, hr, gate_includedCudaRuntime]

/-! ### Concrete inputs used by the witnesses -/

/-- A fresh compilation unit: guard not yet defined, nothing included,
`assert` as provided by the host environment (platform native). -/
def s0 : PPState :=
  { guardDefined := false, includedAssertH := false,
    includedCudaRuntime := false, assertDef := AssertDef.native,
    otherDefs := ["min", "max"] }

/-- Device-side pass for compute capability 1.1, offline compilation. -/
def cfgDev11 : Config := { cudaArch := some 110, cudaccRtc := false }

/-- Device-side pass for compute capability 2.0 exactly, offline. -/
def cfgDev20 : Config := { cudaArch := some 200, cudaccRtc := false }

/-- Device-side pass for compute capability 3.5, offline. -/
def cfgDev35 : Config := { cudaArch := some 350, cudaccRtc := false }

/-- Host-side pass: `__CUDA_ARCH__` undefined. -/
def cfgHost : Config := { cudaArch := none, cudaccRtc := false }

/-- A sample diagnostic. -/
def diag0 : Diagnostic :=
  { file := "Kernel.cu", line := 42, condText := "ix < n" }

/-- A condition with an observable side effect (increments the counter
state) that evaluates false. -/
def condFalseEff : Cond Nat := fun n => (n + 1, false)

/-- A condition with an observable side effect that evaluates true. -/
def condTrueEff : Cond Nat := fun n => (n + 1, true)

/-! ### Claims -/

/-- Claim C1: for every device-side compilation targeting a capability
value strictly below 200 (capability 2.0), processing the header leaves
`assert` defined as the no-op: any invocation, with any condition
expression (true, false, or side-effecting), emits no check, does not
evaluate the condition (the runtime state is returned unchanged), and a
false condition does not terminate the unit of work. -/
theorem assert_noop_below_200 (cfg : Config) (s : PPState) (a : Nat)
    (harch : cfg.cudaArch = some a) (hlt : a < 200)
    (hg : s.guardDefined = false) :
    (processHeader cfg s).assertDef = AssertDef.noop ∧
    ∀ (σ : Type) (diag : Diagnostic) (c : Cond σ) (st : σ),
      runAssert (processHeader cfg s).assertDef diag c st = Except.ok st := by
  have hd : (processHeader cfg s).assertDef = AssertDef.noop := by
    rw [processHeader_assertDef, hg, harch]
    simp [gateAction, hlt]
  refine ⟨hd, ?_⟩
  intro σ diag c st
  rw [hd]
  rfl

/-- Witness for C1: compiling for capability 1.1 yields the no-op
definition, and invoking it on a false, side-effecting condition in state
`0` returns `0` unchanged instead of aborting. -/
theorem assert_noop_below_200_witness :
    (processHeader cfgDev11 s0).assertDef = AssertDef.noop ∧
    runAssert (processHeader cfgDev11 s0).assertDef diag0 condFalseEff 0 =
      Except.ok 0 := by
  have h := assert_noop_below_200 cfgDev11 s0 110 rfl (by decide) rfl
  exact ⟨h.1, h.2 Nat diag0 condFalseEff 0⟩

/-- Claim C2: a device-side compilation targeting capability value exactly
200 (capability 2.0) takes the facility-intact branch: the header leaves
`assert` platform-native, not the no-op. -/
theorem boundary_200_intact (cfg : Config) (s : PPState)
    (harch : cfg.cudaArch = some 200) (hd : s.assertDef = AssertDef.native) :
    (processHeader cfg s).assertDef = AssertDef.native := by
  rw [processHeader_assertDef, harch]
  by_cases hg : s.guardDefined <;> by_cases hr : cfg.cudaccRtc <;>
    simp [hg, hr, hd, gateAction]

/-- Witness for C2: compiling for capability 2.0 from a fresh unit leaves
`assert` platform-native. -/
theorem boundary_200_intact_witness :
    (processHeader cfgDev20 s0).assertDef = AssertDef.native :=
  boundary_200_intact cfgDev20 s0 rfl rfl

/-- Claim C3: for every compilation that is not a device-side pass
(`__CUDA_ARCH__` undefined), with the host environment providing the
platform-native `assert`, the compiled semantics of every invocation of
the facility equal the host-native assertion semantics. -/
theorem host_pass_native_semantics (cfg : Config) (s : PPState)
    (harch : cfg.cudaArch = none) (hd : s.assertDef = AssertDef.native) :
    ∀ (σ : Type) (diag : Diagnostic) (c : Cond σ) (st : σ),
      runAssert (processHeader cfg s).assertDef diag c st =
        hostNativeAssert diag c st := by
  have hnat : (processHeader cfg s).assertDef = AssertDef.native := by
    rw [processHeader_assertDef, harch]
    by_cases hg : s.guardDefined <;> by_cases hr : cfg.cudaccRtc <;>
      simp [hg, hr, hd, gateAction]
  intro σ diag c st
  rw [hnat]
  rfl

/-- Witness for C3: on a host-side pass, invoking the facility on a true
side-effecting condition in state `0` behaves exactly as the host-native
assertion does (both continue in state `1`). -/
theorem host_pass_native_semantics_witness :
    runAssert (processHeader cfgHost s0).assertDef diag0 condTrueEff 0 =
      hostNativeAssert diag0 condTrueEff 0 :=
  host_pass_native_semantics cfgHost s0 rfl rfl Nat diag0 condTrueEff 0

/-- Claim C4: for every device-side compilation targeting a capability
value of at least 200 (capability ≥ 2.0), invoking the facility on a
condition that evaluates false terminates the unit of work, reporting the
diagnostic, and invoking it on a condition that evaluates true merely
continues (with the condition's side effects applied, no control-flow
change). -/
theorem assert_active_at_least_200 (cfg : Config) (s : PPState) (a : Nat)
    (harch : cfg.cudaArch = some a) (hge : 200 ≤ a)
    (hd : s.assertDef = AssertDef.native) :
    ∀ (σ : Type) (diag : Diagnostic) (c : Cond σ) (st : σ),
      ((c st).2 = false →
        runAssert (processHeader cfg s).assertDef diag c st =
          Except.error diag) ∧
      ((c st).2 = true →
        runAssert (processHeader cfg s).assertDef diag c st =
          Except.ok (c st).1) := by
  have hnat : (processHeader cfg s).assertDef = AssertDef.native := by
    rw [processHeader_assertDef, harch]
    have hnlt : ¬a < 200 := Nat.not_lt.mpr hge
    by_cases hg : s.guardDefined <;> by_cases hr : cfg.cudaccRtc <;>
      simp [hg, hr, hd, gateAction, hnlt]
  intro σ diag c st
  rw [hnat]
  constructor
  · intro hc
    simp [runAssert, hc]
  · intro hc
    simp [runAssert, hc]

/-- Witness for C4: compiling for capability 3.5, a false condition aborts
with the diagnostic and a true condition continues in the updated state. -/
theorem assert_active_at_least_200_witness :
    (runAssert (processHeader cfgDev35 s0).assertDef diag0 condFalseEff 0 =
      Except.error diag0) ∧
    (runAssert (processHeader cfgDev35 s0).assertDef diag0 condTrueEff 0 =
      Except.ok 1) := by
  have h := assert_active_at_least_200 cfgDev35 s0 350 rfl (by decide) rfl
  exact ⟨(h Nat diag0 condFalseEff 0).1 rfl, (h Nat diag0 condTrueEff 0).2 rfl⟩

/-- Claim C5: evaluating the header any number of times (one or more) in
one compilation unit yields exactly the same preprocessor state — in
particular the same final `assert` definition — as evaluating it once;
the include guard leaves no cumulative or order-dependent state. -/
theorem processHeader_idempotent (cfg : Config) (s : PPState) (n : Nat) :
    (processHeader cfg)^[n + 1] s = processHeader cfg s := by
  induction n with
  | zero => rfl
  | succ m ih =>
      rw [Function.iterate_succ_apply', ih]
      exact processHeader_of_guard cfg (processHeader cfg s)
        (processHeader_guardDefined cfg s)

/-- Claim C6: the substitution decision (no-op versus intact) is the pure
function `noopSubstituted` of the `__CUDA_ARCH__` input alone — which
carries exactly the two inputs: whether this is a device-side pass
(definedness) and the targeted capability (value).  On any fresh unit the
resulting `assert` definition is fully determined by that decision plus
the pre-gate definition, so two compilations supplying the same inputs
make the same decision; and the decision depends on no mutable state, so
it cannot be re-evaluated later (the guard makes reprocessing a no-op). -/
theorem substitution_decision_pure :
    (∀ cfg : Config, ∀ s : PPState, s.guardDefined = false →
      (processHeader cfg s).assertDef =
        if noopSubstituted cfg then AssertDef.noop
        else if cfg.cudaccRtc then s.assertDef else AssertDef.native) ∧
    (∀ cfg1 cfg2 : Config, cfg1.cudaArch = cfg2.cudaArch →
      noopSubstituted cfg1 = noopSubstituted cfg2) := by
  constructor
  · intro cfg s hg
    rw [processHeader_assertDef, hg]
    simp only [Bool.false_eq_true, if_false]
    unfold gateAction noopSubstituted
    cases harch : cfg.cudaArch with
    | none => simp
    | some v => by_cases h : v < 200 <;> simp [h]
  · intro cfg1 cfg2 h
    unfold noopSubstituted
    rw [h]

/-- Witness for C6: on the fresh unit `s0` compiled for capability 1.1,
the final `assert` definition is the one the decision function
determines. -/
theorem substitution_decision_pure_witness :
    (processHeader cfgDev11 s0).assertDef =
      if noopSubstituted cfgDev11 then AssertDef.noop
      else if cfgDev11.cudaccRtc then s0.assertDef else AssertDef.native :=
  substitution_decision_pure.1 cfgDev11 s0 rfl

/-- Claim C7: the gate (lines 24–27) changes nothing in the compilation
context except the `assert` definition: the resulting state agrees with
the input state on every other field (guard, included headers, and all
other defined names). -/
theorem gate_frame (a : Option Nat) (s : PPState) :
    gate a s = { s with assertDef := (gate a s).assertDef } := by
  unfold gate
  cases a with
  | none => rfl
  | some v => by_cases h : v < 200 <;> simp [h]

/-- Claim C8: the gate itself has no failure mode on any combination of
inputs — for every configuration (device flag present or absent, any
capability value, runtime-compilation or not) and every starting state,
processing the header yields an `assert` definition that is one of the
pre-existing alternatives (platform-native, the no-op, or the definition
the unit already had), never an error; and at runtime the only error kind
the gated facility can produce is the pre-existing assertion-failure
diagnostic. -/
theorem gate_no_failure :
    (∀ cfg : Config, ∀ s : PPState,
      (processHeader cfg s).assertDef = AssertDef.native ∨
      (processHeader cfg s).assertDef = AssertDef.noop ∨
      (processHeader cfg s).assertDef = s.assertDef) ∧
    (∀ σ : Type, ∀ d : AssertDef, ∀ diag : Diagnostic, ∀ c : Cond σ,
      ∀ st : σ,
      (∃ st2 : σ, runAssert d diag c st = Except.ok st2) ∨
      runAssert d diag c st = Except.error diag) := by
  constructor
  · intro cfg s
    rw [processHeader_assertDef]
    by_cases hg : s.guardDefined
    · right; right; simp [hg]
    · simp only [hg, Bool.false_eq_true, if_false]
      unfold gateAction
      cases cfg.cudaArch with
      | none =>
          by_cases hr : cfg.cudaccRtc <;> simp [hr]
      | some v =>
          by_cases h : v < 200
          · right; left; simp [h]
          · by_cases hr : cfg.cudaccRtc <;> simp [h, hr]
  · intro σ d diag c st
    cases d with
    | native =>
        unfold runAssert
        by_cases hc : (c st).2
        · left; exact ⟨(c st).1, by simp [hc]⟩
        · right; simp [hc]
    | noop => left; exact ⟨st, rfl⟩

/-- Claim C9: when the toolchain supplies no capability value at all
(`__CUDA_ARCH__` undefined), the header leaves the assertion facility
intact (platform-native); on a fresh unit the no-op substitution happens
exactly when a capability value is both present and strictly below 200. -/
theorem noop_iff_arch_below_200 (cfg : Config) (s : PPState)
    (hg : s.guardDefined = false) (hd : s.assertDef = AssertDef.native) :
    (cfg.cudaArch = none →
      (processHeader cfg s).assertDef = AssertDef.native) ∧
    ((processHeader cfg s).assertDef = AssertDef.noop ↔
      ∃ a : Nat, cfg.cudaArch = some a ∧ a < 200) := by
  rw [processHeader_assertDef, hg]
  simp only [Bool.false_eq_true, if_false]
  constructor
  · intro harch
    rw [harch]
    unfold gateAction
    by_cases hr : cfg.cudaccRtc <;> simp [hr, hd]
  · unfold gateAction
    cases harch : cfg.cudaArch with
    | none =>
        by_cases hr : cfg.cudaccRtc <;> simp [hr, hd]
    | some v =>
        by_cases h : v < 200
        · simp only [h, if_true]
          constructor
          · intro _
            exact ⟨v, rfl, h⟩
          · intro _
            trivial
        · have hne : (if cfg.cudaccRtc then s.assertDef else AssertDef.native)
              = AssertDef.native := by
            by_cases hr : cfg.cudaccRtc <;> simp [hr, hd]
          simp only [h, if_false, hne]
          constructor
          · intro hcon
            exact AssertDef.noConfusion hcon
          · rintro ⟨a, ha, hlt⟩
            have hva : v = a := Option.some.inj ha
            subst hva
            exact absurd hlt h

/-- Witness for C9: on a fresh unit compiled with `__CUDA_ARCH__`
undefined, the facility stays platform-native and is not the no-op. -/
theorem noop_iff_arch_below_200_witness :
    (processHeader cfgHost s0).assertDef = AssertDef.native ∧
    ¬(processHeader cfgHost s0).assertDef = AssertDef.noop := by
  have h := noop_iff_arch_below_200 cfgHost s0 rfl rfl
  refine ⟨h.1 rfl, fun hn => ?_⟩
  rcases h.2.mp hn with ⟨a, ha, hlt⟩
  exact Option.noConfusion ha

/-- Claim C10: under runtime compilation (`__CUDACC_RTC__` defined) the
header pulls in neither `<assert.h>` nor `<cuda_runtime.h>`, while in
every other mode it includes both; and in both modes the capability gate
applies identically — the final `assert` definition is `gateAction` of
the targeted architecture applied to the pre-gate definition (the
unit's own under runtime compilation, the freshly included platform-native
one otherwise). -/
theorem rtc_includes_and_gate (cfg : Config) (s : PPState)
    (hg : s.guardDefined = false) :
    (cfg.cudaccRtc = true →
      (processHeader cfg s).includedAssertH = s.includedAssertH ∧
      (processHeader cfg s).includedCudaRuntime = s.includedCudaRuntime) ∧
    (cfg.cudaccRtc = false →
      (processHeader cfg s).includedAssertH = true ∧
      (processHeader cfg s).includedCudaRuntime = true) ∧
    (processHeader cfg s).assertDef =
      gateAction cfg.cudaArch
        (if cfg.cudaccRtc then s.assertDef else AssertDef.native) := by
  refine ⟨?_, ?_, ?_⟩
  · intro hr
    rw [processHeader_includedAssertH, processHeader_includedCudaRuntime]
    simp [hg, hr]
  · intro hr
    rw [processHeader_includedAssertH, processHeader_includedCudaRuntime]
    simp [hg, hr]
  · rw [processHeader_assertDef]
    simp [hg]

/-- Witness for C10: a runtime-compilation pass for capability 1.1 on a
fresh unit includes neither platform header, and its final `assert`
definition is the gate action on the unit's own definition. -/
theorem rtc_includes_and_gate_witness :
    ((processHeader (Config.mk (some 110) true) s0).includedAssertH =
        s0.includedAssertH ∧
      (processHeader (Config.mk (some 110) true) s0).includedCudaRuntime =
        s0.includedCudaRuntime) ∧
    (processHeader (Config.mk (some 110) true) s0).assertDef =
      gateAction (some 110) s0.assertDef := by
  have h := rtc_includes_and_gate (Config.mk (some 110) true) s0 rfl
  exact ⟨h.1 rfl, h.2.2⟩
